import Mathlib

set_option autoImplicit false

/-!
# Verification of the antigravity proxy's protocol-translation core

This file gives a shallow embedding, in Lean, of the core of the
`antigravity-claude-proxy` repository (the schema sanitizer, the
content/format converters, the stream synthesizer, the endpoint
dispatcher and the project resolver from `src/format-converter.js`,
`src/cloudcode-client.js` and `src/constants.js`), and proves or
refutes the testable properties stated by its design document.

JavaScript values manipulated by the code are modelled by a `Json`
inductive; JS truthiness, `||` defaulting, `Object.entries` iteration
order and optional chaining are modelled explicitly.  Stateful parts
(the process-wide project cache, the token refresh counter and the
network) are modelled by explicit state passing over a `World` that
maps each endpoint and per-endpoint call index to a response.
-/

/-- JSON / JavaScript values (absent object fields are looked up as
`null`, which shares its falsiness with `undefined`). -/
inductive Json where
  | null : Json
  | bool : Bool → Json
  | num : Int → Json
  | str : String → Json
  | arr : List Json → Json
  | obj : List (String × Json) → Json

namespace Json

/-- JS truthiness of a value (`undefined`/`null`, `false`, `0`, `""`
are falsy; every object and array is truthy). -/
def truthy : Json → Bool
  | .null => false
  | .bool b => b
  | .num n => n != 0
  | .str s => s != ""
  | .arr _ => true
  | .obj _ => true

/-- Property access `v.k` (with optional-chaining semantics: access on
a non-object or a missing key yields `null`, standing for `undefined`). -/
def getField : Json → String → Json
  | .obj kvs, k => ((kvs.find? (fun p => p.1 == k)).map Prod.snd).getD .null
  | _, _ => .null

/-- `typeof v === 'object' && v` in JS: a non-null object or an array. -/
def isObjTruthy : Json → Bool
  | .obj _ => true
  | .arr _ => true
  | _ => false

/-- A plain object: `typeof v === 'object' && v !== null && !Array.isArray(v)`. -/
def isPlainObj : Json → Bool
  | .obj _ => true
  | _ => false

end Json

/-- The denylist `UNSUPPORTED_FIELDS` of `sanitizeSchema`
(format-converter.js lines 244-277). -/
def UNSUPPORTED_FIELDS : List String :=
  ["$schema", "additionalProperties", "default", "anyOf", "allOf", "oneOf",
   "minLength", "maxLength", "pattern", "format", "minimum", "maximum",
   "exclusiveMinimum", "exclusiveMaximum", "minItems", "maxItems",
   "uniqueItems", "minProperties", "maxProperties", "$id", "$ref", "$defs",
   "definitions", "patternProperties", "unevaluatedProperties",
   "unevaluatedItems", "if", "then", "else", "not", "contentEncoding",
   "contentMediaType"]

mutual

/-- `sanitizeSchema` (format-converter.js lines 238-310).  Non-objects
(`!schema || typeof schema !== 'object'`) pass through; arrays reaching
this function directly are iterated by `Object.entries`, producing an
object keyed by decimal indices; objects are rebuilt entry by entry. -/
def sanitizeSchema : Json → Json
  | .arr xs => .obj (sanitizeIdxEntries 0 xs)
  | .obj kvs => .obj (sanitizeEntries kvs)
  | v => v
termination_by v => sizeOf v

/-- The `Object.entries` loop of `sanitizeSchema` applied to an array:
keys are the decimal indices (never denylisted, never `properties` or
`items`), so each element takes the generic branch — plain objects
recurse, everything else (arrays included) passes through unchanged. -/
def sanitizeIdxEntries : Nat → List Json → List (String × Json)
  | _, [] => []
  | i, v :: rest =>
      (toString i, if v.isPlainObj then sanitizeSchema v else v)
        :: sanitizeIdxEntries (i + 1) rest
termination_by _ xs => sizeOf xs

/-- The `Object.entries` loop of `sanitizeSchema` over an object's
entries (format-converter.js lines 280-307). -/
def sanitizeEntries : List (String × Json) → List (String × Json)
  | [] => []
  | (k, v) :: rest =>
    if k ∈ UNSUPPORTED_FIELDS then sanitizeEntries rest
    else if k == "properties" && v.isObjTruthy then
      (k, .obj (match v with
        | .obj pkvs => sanitizePropEntries pkvs
        | .arr xs => sanitizePropIdxEntries 0 xs
        | _ => [])) :: sanitizeEntries rest
    else if k == "items" && v.isObjTruthy then
      (k, sanitizeItems v) :: sanitizeEntries rest
    else if v.isPlainObj then
      (k, sanitizeSchema v) :: sanitizeEntries rest
    else
      (k, v) :: sanitizeEntries rest
termination_by kvs => sizeOf kvs

/-- The `properties` branch over an object value: every property value
is fully sanitized (`sanitized.properties[propKey] = sanitizeSchema(propValue)`). -/
def sanitizePropEntries : List (String × Json) → List (String × Json)
  | [] => []
  | (k, v) :: rest => (k, sanitizeSchema v) :: sanitizePropEntries rest
termination_by kvs => sizeOf kvs

/-- The `properties` branch when the `properties` value is an array:
`Object.entries` yields decimal-index keys and every element is fully
sanitized. -/
def sanitizePropIdxEntries : Nat → List Json → List (String × Json)
  | _, [] => []
  | i, v :: rest =>
      (toString i, sanitizeSchema v) :: sanitizePropIdxEntries (i + 1) rest
termination_by _ xs => sizeOf xs

/-- The `items` branch: arrays are mapped element-wise; an object whose
`anyOf`/`allOf`/`oneOf` field is truthy (`value.anyOf || value.allOf ||
value.oneOf`) is replaced by the permissive empty schema; other objects
are sanitized recursively. -/
def sanitizeItems : Json → Json
  | .arr xs => .arr (sanitizeItemsList xs)
  | .obj kvs =>
      if ((Json.obj kvs).getField "anyOf").truthy
          || ((Json.obj kvs).getField "allOf").truthy
          || ((Json.obj kvs).getField "oneOf").truthy then .obj []
      else .obj (sanitizeEntries kvs)
  | v => v
termination_by v => sizeOf v

/-- `value.map(item => sanitizeSchema(item))` for an `items` array. -/
def sanitizeItemsList : List Json → List Json
  | [] => []
  | v :: rest => sanitizeSchema v :: sanitizeItemsList rest
termination_by xs => sizeOf xs

end

mutual

/-- No key of any object anywhere inside the value (including objects
nested inside arrays) belongs to the sanitizer's denylist. -/
def denyFree : Json → Bool
  | .arr xs => denyFreeList xs
  | .obj kvs => denyFreeEntries kvs
  | _ => true
termination_by v => sizeOf v

def denyFreeList : List Json → Bool
  | [] => true
  | v :: rest => denyFree v && denyFreeList rest
termination_by xs => sizeOf xs

def denyFreeEntries : List (String × Json) → Bool
  | [] => true
  | (k, v) :: rest =>
      !(decide (k ∈ UNSUPPORTED_FIELDS)) && denyFree v && denyFreeEntries rest
termination_by kvs => sizeOf kvs

end

mutual

/-- Inputs on which the sanitizer reaches and cleans every nested
object: (a) array values occur only as direct values of `items` keys
(arrays elsewhere are passed through verbatim by `sanitizeSchema`), and
(b) no property name under a `properties` key is itself a denylisted
keyword (the sanitizer copies property names verbatim). -/
def goodInput : Json → Bool
  | .arr _ => false
  | .obj kvs => goodInputEntries kvs
  | _ => true
termination_by v => sizeOf v

def goodInputEntries : List (String × Json) → Bool
  | [] => true
  | (k, v) :: rest =>
      (if k == "properties" then goodProps v
       else match v with
        | .arr xs => k == "items" && goodInputList xs
        | w => goodInput w) && goodInputEntries rest
termination_by kvs => sizeOf kvs

/-- The value of a `properties` key: a map from property names (which
must not be denylisted keywords) to schemas. -/
def goodProps : Json → Bool
  | .obj pkvs => goodPropEntries pkvs
  | .arr _ => false
  | _ => true
termination_by v => sizeOf v

def goodPropEntries : List (String × Json) → Bool
  | [] => true
  | (pk, pv) :: rest =>
      !(decide (pk ∈ UNSUPPORTED_FIELDS)) && goodInput pv
        && goodPropEntries rest
termination_by kvs => sizeOf kvs

def goodInputList : List Json → Bool
  | [] => true
  | v :: rest => goodInput v && goodInputList rest
termination_by xs => sizeOf xs

end

/-! ## One-step unfolding lemmas for the well-founded definitions -/

@[simp] theorem sanitizeSchema_null : sanitizeSchema .null = .null := by
  rw [sanitizeSchema.eq_def]

@[simp] theorem sanitizeSchema_bool (b : Bool) : sanitizeSchema (.bool b) = .bool b := by
  rw [sanitizeSchema.eq_def]

@[simp] theorem sanitizeSchema_num (n : Int) : sanitizeSchema (.num n) = .num n := by
  rw [sanitizeSchema.eq_def]

@[simp] theorem sanitizeSchema_str (s : String) : sanitizeSchema (.str s) = .str s := by
  rw [sanitizeSchema.eq_def]

@[simp] theorem sanitizeSchema_arr (xs : List Json) :
    sanitizeSchema (.arr xs) = .obj (sanitizeIdxEntries 0 xs) := by
  rw [sanitizeSchema.eq_def]

@[simp] theorem sanitizeSchema_obj (kvs : List (String × Json)) :
    sanitizeSchema (.obj kvs) = .obj (sanitizeEntries kvs) := by
  rw [sanitizeSchema.eq_def]

@[simp] theorem sanitizeIdxEntries_nil (i : Nat) : sanitizeIdxEntries i [] = [] := by
  rw [sanitizeIdxEntries.eq_def]

@[simp] theorem sanitizeIdxEntries_cons (i : Nat) (v : Json) (rest : List Json) :
    sanitizeIdxEntries i (v :: rest)
      = (toString i, if v.isPlainObj then sanitizeSchema v else v)
          :: sanitizeIdxEntries (i + 1) rest := by
  rw [sanitizeIdxEntries.eq_def]

@[simp] theorem sanitizeEntries_nil : sanitizeEntries [] = [] := by
  rw [sanitizeEntries.eq_def]

theorem sanitizeEntries_cons (k : String) (v : Json) (rest : List (String × Json)) :
    sanitizeEntries ((k, v) :: rest)
      = if k ∈ UNSUPPORTED_FIELDS then sanitizeEntries rest
        else if k == "properties" && v.isObjTruthy then
          (k, .obj (match v with
            | .obj pkvs => sanitizePropEntries pkvs
            | .arr xs => sanitizePropIdxEntries 0 xs
            | _ => [])) :: sanitizeEntries rest
        else if k == "items" && v.isObjTruthy then
          (k, sanitizeItems v) :: sanitizeEntries rest
        else if v.isPlainObj then
          (k, sanitizeSchema v) :: sanitizeEntries rest
        else
          (k, v) :: sanitizeEntries rest := by
  rw [sanitizeEntries.eq_def]

@[simp] theorem sanitizePropEntries_nil : sanitizePropEntries [] = [] := by
  rw [sanitizePropEntries.eq_def]

@[simp] theorem sanitizePropEntries_cons (k : String) (v : Json)
    (rest : List (String × Json)) :
    sanitizePropEntries ((k, v) :: rest)
      = (k, sanitizeSchema v) :: sanitizePropEntries rest := by
  rw [sanitizePropEntries.eq_def]

@[simp] theorem sanitizePropIdxEntries_nil (i : Nat) : sanitizePropIdxEntries i [] = [] := by
  rw [sanitizePropIdxEntries.eq_def]

@[simp] theorem sanitizePropIdxEntries_cons (i : Nat) (v : Json) (rest : List Json) :
    sanitizePropIdxEntries i (v :: rest)
      = (toString i, sanitizeSchema v) :: sanitizePropIdxEntries (i + 1) rest := by
  rw [sanitizePropIdxEntries.eq_def]

@[simp] theorem sanitizeItems_arr (xs : List Json) :
    sanitizeItems (.arr xs) = .arr (sanitizeItemsList xs) := by
  rw [sanitizeItems.eq_def]

theorem sanitizeItems_obj (kvs : List (String × Json)) :
    sanitizeItems (.obj kvs)
      = if ((Json.obj kvs).getField "anyOf").truthy
            || ((Json.obj kvs).getField "allOf").truthy
            || ((Json.obj kvs).getField "oneOf").truthy then .obj []
        else .obj (sanitizeEntries kvs) := by
  rw [sanitizeItems.eq_def]

@[simp] theorem sanitizeItemsList_nil : sanitizeItemsList [] = [] := by
  rw [sanitizeItemsList.eq_def]

@[simp] theorem sanitizeItemsList_cons (v : Json) (rest : List Json) :
    sanitizeItemsList (v :: rest) = sanitizeSchema v :: sanitizeItemsList rest := by
  rw [sanitizeItemsList.eq_def]

@[simp] theorem denyFree_null : denyFree .null = true := by rw [denyFree.eq_def]

@[simp] theorem denyFree_bool (b : Bool) : denyFree (.bool b) = true := by
  rw [denyFree.eq_def]

@[simp] theorem denyFree_num (n : Int) : denyFree (.num n) = true := by
  rw [denyFree.eq_def]

@[simp] theorem denyFree_str (s : String) : denyFree (.str s) = true := by
  rw [denyFree.eq_def]

@[simp] theorem denyFree_arr (xs : List Json) : denyFree (.arr xs) = denyFreeList xs := by
  rw [denyFree.eq_def]

@[simp] theorem denyFree_obj (kvs : List (String × Json)) :
    denyFree (.obj kvs) = denyFreeEntries kvs := by
  rw [denyFree.eq_def]

@[simp] theorem denyFreeList_nil : denyFreeList [] = true := by rw [denyFreeList.eq_def]

@[simp] theorem denyFreeList_cons (v : Json) (rest : List Json) :
    denyFreeList (v :: rest) = (denyFree v && denyFreeList rest) := by
  rw [denyFreeList.eq_def]

@[simp] theorem denyFreeEntries_nil : denyFreeEntries [] = true := by
  rw [denyFreeEntries.eq_def]

@[simp] theorem denyFreeEntries_cons (k : String) (v : Json) (rest : List (String × Json)) :
    denyFreeEntries ((k, v) :: rest)
      = (!(decide (k ∈ UNSUPPORTED_FIELDS)) && denyFree v && denyFreeEntries rest) := by
  rw [denyFreeEntries.eq_def]

@[simp] theorem goodInput_null : goodInput .null = true := by rw [goodInput.eq_def]

@[simp] theorem goodInput_bool (b : Bool) : goodInput (.bool b) = true := by
  rw [goodInput.eq_def]

@[simp] theorem goodInput_num (n : Int) : goodInput (.num n) = true := by
  rw [goodInput.eq_def]

@[simp] theorem goodInput_str (s : String) : goodInput (.str s) = true := by
  rw [goodInput.eq_def]

@[simp] theorem goodInput_arr (xs : List Json) : goodInput (.arr xs) = false := by
  rw [goodInput.eq_def]

@[simp] theorem goodInput_obj (kvs : List (String × Json)) :
    goodInput (.obj kvs) = goodInputEntries kvs := by
  rw [goodInput.eq_def]

@[simp] theorem goodInputEntries_nil : goodInputEntries [] = true := by
  rw [goodInputEntries.eq_def]

@[simp] theorem goodInputEntries_cons (k : String) (v : Json)
    (rest : List (String × Json)) :
    goodInputEntries ((k, v) :: rest)
      = ((if k == "properties" then goodProps v
          else match v with
            | .arr xs => k == "items" && goodInputList xs
            | w => goodInput w) && goodInputEntries rest) := by
  rw [goodInputEntries.eq_def]

@[simp] theorem goodProps_obj (pkvs : List (String × Json)) :
    goodProps (.obj pkvs) = goodPropEntries pkvs := by
  rw [goodProps.eq_def]

@[simp] theorem goodProps_arr (xs : List Json) : goodProps (.arr xs) = false := by
  rw [goodProps.eq_def]

@[simp] theorem goodProps_null : goodProps .null = true := by rw [goodProps.eq_def]

@[simp] theorem goodProps_bool (b : Bool) : goodProps (.bool b) = true := by
  rw [goodProps.eq_def]

@[simp] theorem goodProps_num (n : Int) : goodProps (.num n) = true := by
  rw [goodProps.eq_def]

@[simp] theorem goodProps_str (s : String) : goodProps (.str s) = true := by
  rw [goodProps.eq_def]

@[simp] theorem goodPropEntries_nil : goodPropEntries [] = true := by
  rw [goodPropEntries.eq_def]

@[simp] theorem goodPropEntries_cons (pk : String) (pv : Json)
    (rest : List (String × Json)) :
    goodPropEntries ((pk, pv) :: rest)
      = (!(decide (pk ∈ UNSUPPORTED_FIELDS)) && goodInput pv && goodPropEntries rest) := by
  rw [goodPropEntries.eq_def]

@[simp] theorem goodInputList_nil : goodInputList [] = true := by
  rw [goodInputList.eq_def]

@[simp] theorem goodInputList_cons (v : Json) (rest : List Json) :
    goodInputList (v :: rest) = (goodInput v && goodInputList rest) := by
  rw [goodInputList.eq_def]

/-! ## Denylist freedom of the sanitizer on good inputs -/

mutual

theorem sanitize_denyFree_aux :
    ∀ v : Json, goodInput v = true → denyFree (sanitizeSchema v) = true
  | .null, _ => by simp
  | .bool _, _ => by simp
  | .num _, _ => by simp
  | .str _, _ => by simp
  | .arr _, h => by simp at h
  | .obj kvs, h => by
      simp only [sanitizeSchema_obj, denyFree_obj]
      exact sanitizeEntries_denyFree_aux kvs (by simpa using h)
termination_by v => sizeOf v

theorem sanitizeEntries_denyFree_aux :
    ∀ kvs : List (String × Json), goodInputEntries kvs = true →
      denyFreeEntries (sanitizeEntries kvs) = true
  | [], _ => by simp
  | (k, v) :: rest, h => by
      rw [goodInputEntries_cons, Bool.and_eq_true] at h
      obtain ⟨hv, hrest⟩ := h
      have IH := sanitizeEntries_denyFree_aux rest hrest
      rw [sanitizeEntries_cons]
      by_cases hden : k ∈ UNSUPPORTED_FIELDS
      · simpa [if_pos hden] using IH
      · rw [if_neg hden]
        by_cases hprop : (k == "properties") = true
        · rw [if_pos hprop] at hv
          cases v with
          | obj pkvs =>
              have h2 := sanitizeProp_denyFree_aux pkvs (by simpa using hv)
              simp [hprop, Json.isObjTruthy, hden, IH, h2]
          | arr xs => simp at hv
          | null => simp [hprop, Json.isObjTruthy, Json.isPlainObj, hden, IH]
          | bool b => simp [hprop, Json.isObjTruthy, Json.isPlainObj, hden, IH]
          | num n => simp [hprop, Json.isObjTruthy, Json.isPlainObj, hden, IH]
          | str s => simp [hprop, Json.isObjTruthy, Json.isPlainObj, hden, IH]
        · rw [if_neg hprop] at hv
          cases v with
          | arr xs =>
              simp only [Bool.and_eq_true] at hv
              obtain ⟨hit, hxs⟩ := hv
              have h2 := sanitizeItemsList_denyFree_aux xs hxs
              simp [hprop, hit, Json.isObjTruthy, hden, IH, h2]
          | obj okvs =>
              by_cases hit : (k == "items") = true
              · rw [sanitizeItems_obj]
                by_cases hany : (((Json.obj okvs).getField "anyOf").truthy
                    || ((Json.obj okvs).getField "allOf").truthy
                    || ((Json.obj okvs).getField "oneOf").truthy) = true
                · simp [hprop, hit, Json.isObjTruthy, hany, hden, IH]
                · have h2 := sanitizeEntries_denyFree_aux okvs (by simpa using hv)
                  simp [hprop, hit, Json.isObjTruthy, hany, hden, IH, h2]
              · have h2 : denyFreeEntries (sanitizeEntries okvs) = true := by
                  simpa using sanitize_denyFree_aux (.obj okvs) hv
                simp [hprop, hit, Json.isObjTruthy, Json.isPlainObj, hden, IH, h2]
          | null => simp [hprop, Json.isObjTruthy, Json.isPlainObj, hden, IH]
          | bool b => simp [hprop, Json.isObjTruthy, Json.isPlainObj, hden, IH]
          | num n => simp [hprop, Json.isObjTruthy, Json.isPlainObj, hden, IH]
          | str s => simp [hprop, Json.isObjTruthy, Json.isPlainObj, hden, IH]
termination_by kvs => sizeOf kvs

theorem sanitizeProp_denyFree_aux :
    ∀ pkvs : List (String × Json), goodPropEntries pkvs = true →
      denyFreeEntries (sanitizePropEntries pkvs) = true
  | [], _ => by simp
  | (pk, pv) :: rest, h => by
      rw [goodPropEntries_cons, Bool.and_eq_true, Bool.and_eq_true] at h
      obtain ⟨⟨hpk, hpv⟩, hrest⟩ := h
      rw [sanitizePropEntries_cons, denyFreeEntries_cons, Bool.and_eq_true, Bool.and_eq_true]
      exact ⟨⟨hpk, sanitize_denyFree_aux pv hpv⟩, sanitizeProp_denyFree_aux rest hrest⟩
termination_by kvs => sizeOf kvs

theorem sanitizeItemsList_denyFree_aux :
    ∀ xs : List Json, goodInputList xs = true →
      denyFreeList (sanitizeItemsList xs) = true
  | [], _ => by simp
  | v :: rest, h => by
      rw [goodInputList_cons, Bool.and_eq_true] at h
      rw [sanitizeItemsList_cons, denyFreeList_cons, Bool.and_eq_true]
      exact ⟨sanitize_denyFree_aux v h.1, sanitizeItemsList_denyFree_aux rest h.2⟩
termination_by xs => sizeOf xs

end

/-- C2, counterexample: the claim fails as stated.  First input: an array
value under the non-`items` key `foo` is passed through verbatim by
`sanitizeSchema`, so the denylisted keyword `pattern` survives inside it.
Second input: a property *name* under `properties` that collides with the
denylisted keyword `format` is copied verbatim into the output map. -/
theorem c2_counterexample :
    denyFree (sanitizeSchema (Json.obj
        [("foo", Json.arr [Json.obj [("pattern", Json.str "a")]])])) = false
  ∧ denyFree (sanitizeSchema (Json.obj
        [("properties",
          Json.obj [("format", Json.obj [("type", Json.str "string")])])])) = false := by
  constructor <;>
    simp [sanitizeEntries_cons, Json.isObjTruthy, Json.isPlainObj, UNSUPPORTED_FIELDS]

/-- C2 (amended): for every input schema in which array values occur only as
direct values of `items` keys and no property name under a `properties` key
is itself a denylisted keyword, the output of `sanitizeSchema` contains no
denylisted JSON-Schema keyword as a key at any nesting depth. -/
theorem c2_sanitizeSchema_denyFree (v : Json) (h : goodInput v = true) :
    denyFree (sanitizeSchema v) = true :=
  sanitize_denyFree_aux v h

/-- Witness for C2: a concrete schema with nested `properties`, a denylisted
`minimum` bound and an `items` array, on which the amended claim evaluates. -/
theorem c2_sanitizeSchema_denyFree_witness :
    goodInput (Json.obj
      [("type", Json.str "object"),
       ("properties", Json.obj
          [("count", Json.obj [("type", Json.str "integer"), ("minimum", Json.num 0)])]),
       ("items", Json.arr [Json.obj [("type", Json.str "string"),
          ("pattern", Json.str "x")]])]) = true
  ∧ denyFree (sanitizeSchema (Json.obj
      [("type", Json.str "object"),
       ("properties", Json.obj
          [("count", Json.obj [("type", Json.str "integer"), ("minimum", Json.num 0)])]),
       ("items", Json.arr [Json.obj [("type", Json.str "string"),
          ("pattern", Json.str "x")]])])) = true :=
  ⟨by simp [UNSUPPORTED_FIELDS], c2_sanitizeSchema_denyFree _ (by simp [UNSUPPORTED_FIELDS])⟩

/-! ## Content and format conversion (format-converter.js) -/

/-- `MODEL_MAPPINGS` (constants.js lines 33-43). -/
def MODEL_MAPPINGS : List (String × String) :=
  [("claude-3-opus-20240229", "claude-opus-4-5-thinking"),
   ("claude-3-5-opus-20240229", "claude-opus-4-5-thinking"),
   ("claude-3-5-sonnet-20241022", "claude-sonnet-4-5"),
   ("claude-3-5-sonnet-20240620", "claude-sonnet-4-5"),
   ("claude-3-sonnet-20240229", "claude-sonnet-4-5"),
   ("claude-sonnet-4-5", "claude-sonnet-4-5"),
   ("claude-sonnet-4-5-thinking", "claude-sonnet-4-5-thinking"),
   ("claude-opus-4-5-thinking", "claude-opus-4-5-thinking")]

/-- `mapModelName` (format-converter.js lines 16-18): the mapped name, or
pass-through for unmapped names. -/
def mapModelName (anthropicModel : String) : String :=
  ((MODEL_MAPPINGS.find? (fun p => p.1 == anthropicModel)).map Prod.snd).getD anthropicModel

/-- JS `a || b` for an optional string field (absent and `""` are falsy). -/
def jsOrStr : Option String → String → String
  | some s, d => if s == "" then d else s
  | none, d => d

/-- JS `a || b` for an optional JS-value field. -/
def jsOrJson : Option Json → Json → Json
  | some v, d => if v.truthy then v else d
  | none, d => d

/-- JS truthiness of an optional string field. -/
def optStrTruthy : Option String → Bool
  | some s => s != ""
  | none => false

/-- The `source` field of an image or document block. -/
inductive BlockSource where
  | base64 (media_type : Option String) (data : String)
  | url (media_type : Option String) (url : String)
  | other

mutual

/-- The `content` field of a `tool_result` block: a string, an array of
blocks (only the text sub-blocks are used), or any other JS value
(passed through as the response object). -/
inductive ToolResultContent where
  | str (s : String)
  | blocks (bs : List ContentBlock)
  | other (v : Json)

/-- Frontend content blocks (the Anthropic `ContentBlock` union). -/
inductive ContentBlock where
  | text (text : String)
  | image (source : Option BlockSource)
  | document (source : Option BlockSource)
  | tool_use (id : Option String) (name : String) (input : Json)
  | tool_result (tool_use_id : Option String) (content : ToolResultContent)
  | thinking (thinking : String)
  | redacted_thinking

end

/-- Backend (Google-format) request and response parts. -/
inductive BackendPart where
  | text (text : String) (thought : Bool)
  | inlineData (mimeType : Option String) (data : String)
  | fileData (mimeType : String) (fileUri : String)
  | functionCall (id : Option String) (name : String) (args : Json)
  | functionResponse (id : Option String) (name : String) (response : Json)

/-- `responseContent.filter(c => c.type === 'text').map(c => c.text).join('\n')`
(format-converter.js lines 92-96). -/
def joinTextBlocks (bs : List ContentBlock) : String :=
  String.intercalate "\n" (bs.filterMap fun b => match b with
    | .text t => some t
    | _ => none)

/-- The per-block body of the `convertContentToParts` loop
(format-converter.js lines 34-120); blocks producing no part contribute
nothing. -/
def convertBlockParts (isClaudeModel : Bool) : ContentBlock → List BackendPart
  | .text t => [.text t false]
  | .image src =>
      match src with
      | some (.base64 mt d) => [.inlineData mt d]
      | some (.url mt u) => [.fileData (jsOrStr mt "image/jpeg") u]
      | _ => []
  | .document src =>
      match src with
      | some (.base64 mt d) => [.inlineData mt d]
      | some (.url mt u) => [.fileData (jsOrStr mt "application/pdf") u]
      | _ => []
  | .tool_use id name input =>
      [.functionCall (if isClaudeModel && optStrTruthy id then id else none) name
        (if input.truthy then input else .obj [])]
  | .tool_result tuid content =>
      [.functionResponse (if isClaudeModel && optStrTruthy tuid then tuid else none)
        (jsOrStr tuid "unknown")
        (match content with
          | .str s => .obj [("result", .str s)]
          | .blocks bs => .obj [("result", .str (joinTextBlocks bs))]
          | .other v => v)]
  | .thinking t => if !isClaudeModel then [.text t true] else []
  | .redacted_thinking => []

/-- A message's `content`: a plain string or an array of blocks (the two
forms the frontend protocol admits). -/
inductive MsgContent where
  | str (s : String)
  | blocks (bs : List ContentBlock)

/-- `convertContentToParts` (format-converter.js lines 23-123): a string
becomes a single text part; a block array is converted block by block;
an empty result is replaced by a single empty text part. -/
def convertContentToParts (content : MsgContent) (isClaudeModel : Bool) : List BackendPart :=
  match content with
  | .str s => [.text s false]
  | .blocks bs =>
      let parts := (bs.map (convertBlockParts isClaudeModel)).flatten
      if parts.length > 0 then parts else [.text "" false]

/-- `convertRole` (format-converter.js lines 128-132). -/
def convertRole (role : String) : String :=
  if role == "assistant" then "model"
  else if role == "user" then "user"
  else "user"

/-- `.toLowerCase()` applied code point by code point (the model names
this proxy handles are ASCII, where this coincides with JS semantics). -/
def jsToLower (s : String) : String := String.mk (s.data.map Char.toLower)

/-- The `isClaudeModel` test of `convertAnthropicToGoogle`
(format-converter.js line 145):
`(anthropicRequest.model || '').toLowerCase().includes('claude')`. -/
def isClaudeModelOf (model : Option String) : Bool :=
  decide ("claude".toList <:+: (jsToLower (model.getD "")).toList)

/-- A tool definition as supplied by the frontend; the converter probes
several possible field locations for name, description and schema
(format-converter.js lines 205-218).  Fields the protocol types as
strings are modelled as optional strings (absent = `undefined`). -/
structure ToolFunctionField where
  name : Option String
  description : Option String
  input_schema : Option Json
  parameters : Option Json

structure ToolCustomField where
  name : Option String
  description : Option String
  input_schema : Option Json

structure ToolSpec where
  name : Option String
  description : Option String
  input_schema : Option Json
  func : Option ToolFunctionField
  custom : Option ToolCustomField
  parameters : Option Json

/-- `tool.name || tool.function?.name || tool.custom?.name || \x60tool-${idx}\x60`
(format-converter.js line 207). -/
def resolvedToolName (t : ToolSpec) (idx : Nat) : String :=
  jsOrStr t.name (jsOrStr (t.func.bind ToolFunctionField.name)
    (jsOrStr (t.custom.bind ToolCustomField.name) ("tool-" ++ toString idx)))

/-- `tool.description || tool.function?.description || tool.custom?.description || ''`
(format-converter.js line 210). -/
def resolvedToolDescription (t : ToolSpec) : String :=
  jsOrStr t.description (jsOrStr (t.func.bind ToolFunctionField.description)
    (jsOrStr (t.custom.bind ToolCustomField.description) ""))

/-- The schema probe chain (format-converter.js lines 213-218). -/
def resolvedToolSchema (t : ToolSpec) : Json :=
  jsOrJson t.input_schema (jsOrJson (t.func.bind ToolFunctionField.input_schema)
    (jsOrJson (t.func.bind ToolFunctionField.parameters)
      (jsOrJson (t.custom.bind ToolCustomField.input_schema)
        (jsOrJson t.parameters (.obj [("type", .str "object")])))))

/-- Characters admitted by the tool-name regex `[a-zA-Z0-9_-]`. -/
def isToolNameChar (c : Char) : Bool :=
  ('a' ≤ c && c ≤ 'z') || ('A' ≤ c && c ≤ 'Z') || ('0' ≤ c && c ≤ '9')
    || c == '_' || c == '-'

/-- `String(name).replace(/[^a-zA-Z0-9_-]/g, '_').slice(0, 64)`
(format-converter.js line 221); after the replacement every character is
ASCII, so `slice`'s UTF-16 index coincides with the character index. -/
def sanitizeToolName (s : String) : String :=
  String.mk ((s.data.map (fun c => if isToolNameChar c then c else '_')).take 64)

/-- One entry of `functionDeclarations` (format-converter.js lines 220-224). -/
structure FunctionDecl where
  name : String
  description : String
  parameters : Json

def toFunctionDecl (idx : Nat) (t : ToolSpec) : FunctionDecl :=
  { name := sanitizeToolName (resolvedToolName t idx),
    description := resolvedToolDescription t,
    parameters := sanitizeSchema (resolvedToolSchema t) }

/-- The `system` field: a string, an array of blocks, or any other JS
value (which yields no system instruction). -/
inductive SystemContent where
  | str (s : String)
  | blocks (bs : List ContentBlock)
  | other (v : Json)

/-- JS truthiness of the optional `system` field (`if (system)`). -/
def systemTruthy : Option SystemContent → Bool
  | some (.str s) => s != ""
  | some (.blocks _) => true
  | some (.other v) => v.truthy
  | none => false

/-- The text parts extracted from the `system` field
(format-converter.js lines 154-163). -/
def systemPartsOf : Option SystemContent → List BackendPart
  | some (.str s) => [.text s false]
  | some (.blocks bs) =>
      bs.filterMap fun b => match b with
        | .text t => some (BackendPart.text t false)
        | _ => none
  | _ => []

/-- `systemInstruction` is attached only when `system` is truthy and at
least one text part was extracted (format-converter.js lines 153-170). -/
def systemInstructionOf (sys : Option SystemContent) : Option (List BackendPart) :=
  if systemTruthy sys then
    let ps := systemPartsOf sys
    if ps.length > 0 then some ps else none
  else none

structure AnthropicMessage where
  role : String
  content : MsgContent

/-- The frontend request fields consumed by `convertAnthropicToGoogle`
(format-converter.js line 144); numeric sampling parameters are opaque
JS values copied through. -/
structure AnthropicRequest where
  model : Option String
  messages : List AnthropicMessage
  system : Option SystemContent
  max_tokens : Option Json
  temperature : Option Json
  top_p : Option Json
  top_k : Option Json
  stop_sequences : Option (List String)
  tools : Option (List ToolSpec)

structure GenerationConfig where
  maxOutputTokens : Option Json
  temperature : Option Json
  topP : Option Json
  topK : Option Json
  stopSequences : Option (List String)

structure GoogleContent where
  role : String
  parts : List BackendPart

/-- The backend request assembled by `convertAnthropicToGoogle`
(format-converter.js lines 143-231); `tools`, when present, is the single
`{ functionDeclarations }` wrapper. -/
structure GoogleRequest where
  contents : List GoogleContent
  systemInstruction : Option (List BackendPart)
  generationConfig : GenerationConfig
  tools : Option (List FunctionDecl)

/-- JS truthiness of an optional JS-value field. -/
def optJsonTruthy : Option Json → Bool
  | some v => v.truthy
  | none => false

/-- `if (stop_sequences && stop_sequences.length > 0)`
(format-converter.js lines 195-197). -/
def stopSequencesOf : Option (List String) → Option (List String)
  | some l => if l.length > 0 then some l else none
  | none => none

/-- `if (tools && tools.length > 0)` with
`tools.map((tool, idx) => ...)` (format-converter.js lines 204-228). -/
def toolDeclsOf : Option (List ToolSpec) → Option (List FunctionDecl)
  | some ts => if ts.length > 0 then some (ts.mapIdx toFunctionDecl) else none
  | none => none

/-- `convertAnthropicToGoogle` (format-converter.js lines 143-231). -/
def convertAnthropicToGoogle (req : AnthropicRequest) : GoogleRequest :=
  let isClaudeModel := isClaudeModelOf req.model
  { contents := req.messages.map fun m =>
      { role := convertRole m.role,
        parts := convertContentToParts m.content isClaudeModel },
    systemInstruction := systemInstructionOf req.system,
    generationConfig :=
      { maxOutputTokens := if optJsonTruthy req.max_tokens then req.max_tokens else none,
        temperature := req.temperature,
        topP := req.top_p,
        topK := req.top_k,
        stopSequences := stopSequencesOf req.stop_sequences },
    tools := toolDeclsOf req.tools }

/-! ## Response conversion (format-converter.js lines 320-383) -/

/-- A response candidate: `candidate.content?.parts` collapsed through
the `|| \x7b\x7d` / `|| []` defaults, plus the finish reason. -/
structure Candidate where
  content : Option (List BackendPart)
  finishReason : Option String

structure UsageMetadata where
  promptTokenCount : Option Int
  candidatesTokenCount : Option Int

/-- The backend response after the `googleResponse.response ||
googleResponse` unwrapping (the wrapper carries no other used field). -/
structure GoogleResponse where
  candidates : List Candidate
  usageMetadata : Option UsageMetadata

/-- Deterministic stand-in for the `crypto.randomBytes` identifiers: the
message id and the n-th generated `toolu_` id of one conversion call. -/
structure IdSupply where
  msgId : String
  toolId : Nat → String

/-- Frontend response content blocks (text | tool_use). -/
inductive OutBlock where
  | text (text : String)
  | tool_use (id : String) (name : String) (input : Json)

/-- The parts loop of `convertGoogleToAnthropic` (format-converter.js
lines 333-354): thought-marked text is dropped, text becomes a text
block, a function call becomes a `tool_use` block whose id is the
response's id or, when that is absent or empty, a freshly generated one
(`n` counts the function-call parts already seen). -/
def blocksOfParts (ids : IdSupply) : List BackendPart → Nat → List OutBlock
  | [], _ => []
  | .text t thought :: rest, n =>
      if thought then blocksOfParts ids rest n
      else .text t :: blocksOfParts ids rest n
  | .functionCall id name args :: rest, n =>
      .tool_use (jsOrStr id (ids.toolId n)) name (if args.truthy then args else .obj [])
        :: blocksOfParts ids rest (n + 1)
  | _ :: rest, n => blocksOfParts ids rest n

/-- `toolCallCounter` after the loop: the number of function-call parts. -/
def toolCallCount (parts : List BackendPart) : Nat :=
  parts.countP fun p => match p with
    | .functionCall _ _ _ => true
    | _ => false

/-- The stop-reason mapping (format-converter.js lines 357-365). -/
def stopReasonOf (finishReason : Option String) (toolCalls : Nat) : String :=
  if finishReason == some "STOP" then "end_turn"
  else if finishReason == some "MAX_TOKENS" then "max_tokens"
  else if finishReason == some "TOOL_USE" || toolCalls > 0 then "tool_use"
  else "end_turn"

/-- The frontend response (`type: 'message'`, `role: 'assistant'` and
`stop_sequence: null` are constants in the source and are omitted). -/
structure AnthropicResponse where
  id : String
  content : List OutBlock
  model : Option String
  stop_reason : String
  input_tokens : Int
  output_tokens : Int

/-- `convertGoogleToAnthropic` (format-converter.js lines 320-383). -/
def convertGoogleToAnthropic (ids : IdSupply) (googleResponse : GoogleResponse)
    (model : Option String) : AnthropicResponse :=
  let firstCandidate := (googleResponse.candidates.head?).getD ⟨none, none⟩
  let parts := firstCandidate.content.getD []
  let anthropicContent := blocksOfParts ids parts 0
  let usage := googleResponse.usageMetadata.getD ⟨none, none⟩
  { id := ids.msgId,
    content := if anthropicContent.length > 0 then anthropicContent else [.text ""],
    model := model,
    stop_reason := stopReasonOf firstCandidate.finishReason (toolCallCount parts),
    input_tokens := (usage.promptTokenCount).getD 0,
    output_tokens := (usage.candidatesTokenCount).getD 0 }

/-! ## Tool-name sanitization (C7) -/

theorem jsOrStr_ne_empty (o : Option String) (d : String) (hd : d ≠ "") :
    jsOrStr o d ≠ "" := by
  match o with
  | none => simpa [jsOrStr] using hd
  | some s =>
      simp only [jsOrStr]
      split
      · exact hd
      · next hne => simpa using hne

theorem resolvedToolName_ne_empty (t : ToolSpec) (idx : Nat) :
    resolvedToolName t idx ≠ "" := by
  have hbase : ("tool-" ++ toString idx) ≠ "" := by
    intro h
    have h0 : ("tool-" ++ toString idx).length = 0 := by rw [h]; rfl
    rw [String.length_append] at h0
    have h5 : "tool-".length = 5 := rfl
    omega
  exact jsOrStr_ne_empty _ _ (jsOrStr_ne_empty _ _ (jsOrStr_ne_empty _ _ hbase))

theorem sanitizeToolName_length (s : String) : (sanitizeToolName s).length ≤ 64 := by
  have : (sanitizeToolName s).length
      = ((s.data.map (fun c => if isToolNameChar c then c else '_')).take 64).length := rfl
  rw [this, List.length_take]
  exact min_le_left _ _

theorem sanitizeToolName_ne_empty (s : String) (hs : s ≠ "") :
    sanitizeToolName s ≠ "" := by
  intro h
  apply hs
  have hdata : ((s.data.map (fun c => if isToolNameChar c then c else '_')).take 64) = [] :=
    congrArg String.data h
  rw [List.take_eq_nil_iff] at hdata
  rcases hdata with h64 | hdata
  · exact absurd h64 (by decide)
  · have hnil : s.data = [] := by simpa using hdata
    cases s with
    | mk d =>
        have hd : d = [] := hnil
        subst hd
        rfl

theorem sanitizeToolName_chars (s : String) :
    ∀ c ∈ (sanitizeToolName s).data, isToolNameChar c = true := by
  intro c hc
  have hc' : c ∈ s.data.map (fun c => if isToolNameChar c then c else '_') :=
    List.take_subset _ _ hc
  rcases List.mem_map.mp hc' with ⟨a, _, rfl⟩
  by_cases ha : isToolNameChar a = true
  · rw [if_pos ha]; exact ha
  · rw [if_neg ha]; decide

/-- C7: every function declaration built by the Request Builder carries a
sanitized tool name that is non-empty, at most 64 characters long, and
made only of characters from `[a-zA-Z0-9_-]` — including the positional
placeholder used when the source tool has no name.  Stated over every
declaration in the `tools` field of `convertAnthropicToGoogle`'s output. -/
theorem c7_sanitized_tool_names (req : AnthropicRequest) (fd : FunctionDecl)
    (hfd : fd ∈ ((convertAnthropicToGoogle req).tools.getD [])) :
    fd.name ≠ "" ∧ fd.name.length ≤ 64 ∧ ∀ c ∈ fd.name.data, isToolNameChar c = true := by
  have : ∃ i t, fd = toFunctionDecl i t := by
    simp only [convertAnthropicToGoogle] at hfd
    rcases htools : req.tools with _ | ts
    · rw [htools] at hfd
      simp [toolDeclsOf] at hfd
    · rw [htools] at hfd
      simp only [toolDeclsOf] at hfd
      split at hfd
      · rw [Option.getD_some, List.mapIdx_eq_enum_map] at hfd
        rcases List.mem_map.mp hfd with ⟨⟨i, t⟩, _, rfl⟩
        exact ⟨i, t, rfl⟩
      · simp at hfd
  rcases this with ⟨i, t, rfl⟩
  refine ⟨sanitizeToolName_ne_empty _ (resolvedToolName_ne_empty t i),
    sanitizeToolName_length _, sanitizeToolName_chars _⟩

/-- A request with two tools: one with a messy name, one with no name. -/
def c7ExampleRequest : AnthropicRequest :=
  { model := some "claude-sonnet-4-5", messages := [], system := none,
    max_tokens := none, temperature := none, top_p := none, top_k := none,
    stop_sequences := none,
    tools := some
      [{ name := some "my tool!", description := none, input_schema := none,
         func := none, custom := none, parameters := none },
       { name := none, description := none, input_schema := none,
         func := none, custom := none, parameters := none }] }

/-- The second (nameless) tool of `c7ExampleRequest`. -/
def c7ExampleTool : ToolSpec :=
  { name := none, description := none, input_schema := none,
    func := none, custom := none, parameters := none }

/-- Witness for C7: the placeholder-named declaration built from the
nameless tool satisfies the three name constraints. -/
theorem c7_sanitized_tool_names_witness :
    toFunctionDecl 1 c7ExampleTool ∈ ((convertAnthropicToGoogle c7ExampleRequest).tools.getD [])
    ∧ ((toFunctionDecl 1 c7ExampleTool).name ≠ ""
        ∧ (toFunctionDecl 1 c7ExampleTool).name.length ≤ 64
        ∧ ∀ c ∈ (toFunctionDecl 1 c7ExampleTool).name.data, isToolNameChar c = true) :=
  have hmem : toFunctionDecl 1 c7ExampleTool
      ∈ ((convertAnthropicToGoogle c7ExampleRequest).tools.getD []) := by
    simp [convertAnthropicToGoogle, c7ExampleRequest, toolDeclsOf,
      List.mapIdx_eq_enum_map, List.enum, c7ExampleTool]
  ⟨hmem, c7_sanitized_tool_names c7ExampleRequest _ hmem⟩

/-- A parts list consisting only of thought-marked text maps to no
frontend block: the loop drops every such part. -/
theorem blocksOfParts_all_thought (ids : IdSupply) :
    ∀ (parts : List BackendPart) (n : Nat),
      (∀ p ∈ parts, ∃ t : String, p = .text t true) →
      blocksOfParts ids parts n = []
  | [], _, _ => rfl
  | p :: rest, n, h => by
      obtain ⟨t, rfl⟩ := h p (List.mem_cons_self p rest)
      simp only [blocksOfParts, if_true]
      exact blocksOfParts_all_thought ids rest n
        (fun q hq => h q (List.mem_cons_of_mem _ hq))

/-- C8: every backend response converts to a frontend response with a
non-empty content array: when the first candidate's parts map to no
usable frontend block, a single empty text block is synthesized in its
place; and parts that are all thought-marked text (which the loop
drops) map to no block, so they too land on the fallback. -/
theorem c8_nonempty_content (ids : IdSupply) (resp : GoogleResponse) (model : Option String) :
    (convertGoogleToAnthropic ids resp model).content ≠ []
    ∧ (blocksOfParts ids
          (((resp.candidates.head?).getD ⟨none, none⟩).content.getD []) 0 = [] →
        (convertGoogleToAnthropic ids resp model).content = [.text ""])
    ∧ ∀ (parts : List BackendPart) (n : Nat),
        (∀ p ∈ parts, ∃ t : String, p = .text t true) →
        blocksOfParts ids parts n = [] := by
  refine ⟨?_, ?_, blocksOfParts_all_thought ids⟩
  · simp only [convertGoogleToAnthropic]
    split
    · next hlen => exact List.ne_nil_of_length_pos hlen
    · simp
  · intro h
    simp [convertGoogleToAnthropic, h]

/-- A response whose only part is thought-marked text. -/
def c8ExampleResponse : GoogleResponse :=
  ⟨[⟨some [.text "internal reasoning" true], none⟩], none⟩

/-- Witness for C8: the thought-only response maps to no usable block
and the converter synthesizes the single empty text block. -/
theorem c8_nonempty_content_witness :
    blocksOfParts ⟨"msg_0", fun _ => "toolu_0"⟩
        (((c8ExampleResponse.candidates.head?).getD ⟨none, none⟩).content.getD []) 0 = []
    ∧ (convertGoogleToAnthropic ⟨"msg_0", fun _ => "toolu_0"⟩
        c8ExampleResponse none).content = [.text ""]
    ∧ (convertGoogleToAnthropic ⟨"msg_0", fun _ => "toolu_0"⟩
        c8ExampleResponse none).content ≠ [] :=
  have h0 : blocksOfParts ⟨"msg_0", fun _ => "toolu_0"⟩
      (((c8ExampleResponse.candidates.head?).getD ⟨none, none⟩).content.getD []) 0
        = [] := rfl
  have hc := c8_nonempty_content ⟨"msg_0", fun _ => "toolu_0"⟩ c8ExampleResponse none
  ⟨h0, hc.2.1 h0, hc.1⟩

/-- C5: a `tool_use` block with a non-empty id, a name and an object
input, converted to a backend function-call part and back through the
response converter, preserves the name and the input structurally; for
the Claude-compatible family the original id also survives. -/
theorem c5_tool_use_roundtrip (flag : Bool) (ids : IdSupply) (mdl : Option String)
    (bid nm : String) (kvs : List (String × Json)) (hbid : bid ≠ "") :
    ∃ outId : String,
      (convertGoogleToAnthropic ids
        { candidates :=
            [{ content := some (convertContentToParts
                 (.blocks [.tool_use (some bid) nm (.obj kvs)]) flag),
               finishReason := none }],
          usageMetadata := none } mdl).content
        = [.tool_use outId nm (.obj kvs)]
      ∧ (flag = true → outId = bid) := by
  have hbne : (bid != "") = true := by simpa using hbid
  cases flag with
  | true =>
      refine ⟨bid, ?_, fun _ => rfl⟩
      simp [convertContentToParts, convertBlockParts, convertGoogleToAnthropic,
        blocksOfParts, Json.truthy, optStrTruthy, hbne, jsOrStr, hbid]
  | false =>
      refine ⟨ids.toolId 0, ?_, by simp⟩
      simp [convertContentToParts, convertBlockParts, convertGoogleToAnthropic,
        blocksOfParts, Json.truthy, optStrTruthy, jsOrStr]

/-- Witness for C5: the round trip at a concrete tool call, for the
Claude-compatible flag. -/
theorem c5_tool_use_roundtrip_witness :
    ("toolu_01" : String) ≠ ""
    ∧ ∃ outId : String,
      (convertGoogleToAnthropic ⟨"m", fun _ => "gen"⟩
        { candidates :=
            [{ content := some (convertContentToParts
                 (.blocks [.tool_use (some "toolu_01") "get_weather"
                    (.obj [("city", .str "Paris")])]) true),
               finishReason := none }],
          usageMetadata := none } (some "claude-sonnet-4-5")).content
        = [.tool_use outId "get_weather" (.obj [("city", .str "Paris")])]
      ∧ (true = true → outId = "toolu_01") :=
  ⟨by decide,
   c5_tool_use_roundtrip true ⟨"m", fun _ => "gen"⟩ (some "claude-sonnet-4-5")
     "toolu_01" "get_weather" [("city", .str "Paris")] (by decide)⟩

/-- C10: membership in the Claude-compatible family is computed from the
request's original model string alone — the case-insensitive substring
test `'claude' ∈ lower(model ?? '')` — with a missing model treated as
not Claude-compatible; that single flag is what the converter passes for
every message's content, and it alone decides dropping thinking blocks
and attaching `tool_use` ids. -/
theorem c10_claude_family (req : AnthropicRequest) :
    (convertAnthropicToGoogle req).contents = req.messages.map (fun m =>
      { role := convertRole m.role,
        parts := convertContentToParts m.content (isClaudeModelOf req.model) })
    ∧ isClaudeModelOf req.model
        = decide ("claude".toList <:+: (jsToLower (req.model.getD "")).toList)
    ∧ isClaudeModelOf none = false
    ∧ (∀ t : String, convertBlockParts (isClaudeModelOf req.model) (.thinking t)
        = if isClaudeModelOf req.model then [] else [.text t true])
    ∧ (∀ (bid nm : String) (input : Json),
        convertBlockParts (isClaudeModelOf req.model) (.tool_use (some bid) nm input)
          = [.functionCall
              (if isClaudeModelOf req.model && bid != "" then some bid else none)
              nm (if input.truthy then input else .obj [])]) := by
  refine ⟨rfl, rfl, by decide, ?_, ?_⟩
  · intro t
    cases h : isClaudeModelOf req.model <;> simp [convertBlockParts, h]
  · intro bid nm input
    simp [convertBlockParts, optStrTruthy]

/-! ## Stream synthesis (cloudcode-client.js lines 214-311) -/

/-- `STREAMING_CHUNK_SIZE` (constants.js line 74). -/
def STREAMING_CHUNK_SIZE : Nat := 20

mutual

/-- `JSON.stringify` (string escaping elided; no stringified value in
this development contains characters needing escapes). -/
def jsonStringify : Json → String
  | .null => "null"
  | .bool b => if b then "true" else "false"
  | .num n => toString n
  | .str s => "\"" ++ s ++ "\""
  | .arr xs => "[" ++ String.intercalate "," (jsonStringifyList xs) ++ "]"
  | .obj kvs => "\x7b" ++ String.intercalate "," (jsonStringifyEntries kvs) ++ "\x7d"
termination_by v => sizeOf v

def jsonStringifyList : List Json → List String
  | [] => []
  | v :: rest => jsonStringify v :: jsonStringifyList rest
termination_by xs => sizeOf xs

def jsonStringifyEntries : List (String × Json) → List String
  | [] => []
  | (k, v) :: rest =>
      ("\"" ++ k ++ "\":" ++ jsonStringify v) :: jsonStringifyEntries rest
termination_by kvs => sizeOf kvs

end

inductive StreamDelta where
  | text_delta (text : String)
  | input_json_delta (partial_json : String)

/-- The `content_block` payload of a `content_block_start` event: an
empty text block, or a tool header `\x7bid, name, input: \x7b\x7d\x7d`. -/
inductive StartBlock where
  | text
  | tool_use (id : String) (name : String)

/-- Synthesized SSE events (each index-bearing constructor mirrors one
`yield` of `sendMessageStream`). -/
inductive StreamEvent where
  | message_start (id : String) (model : Option String) (input_tokens : Int)
  | content_block_start (index : Nat) (content_block : StartBlock)
  | content_block_delta (index : Nat) (delta : StreamDelta)
  | content_block_stop (index : Nat)
  | message_delta (stop_reason : String) (output_tokens : Int)
  | message_stop

/-- The chunking loop `for (let i = 0; i < text.length; i +=
STREAMING_CHUNK_SIZE) text.slice(i, i + STREAMING_CHUNK_SIZE)`
(cloudcode-client.js lines 249-256), at character granularity. -/
def chunksFrom : List Char → List String
  | [] => []
  | c :: rest =>
      String.mk ((c :: rest).take STREAMING_CHUNK_SIZE)
        :: chunksFrom ((c :: rest).drop STREAMING_CHUNK_SIZE)
termination_by l => l.length
decreasing_by
  simp only [STREAMING_CHUNK_SIZE, List.length_drop, List.length_cons]
  omega

/-- Events for one text block (cloudcode-client.js lines 238-264). -/
def textBlockEvents (idx : Nat) (t : String) : List StreamEvent :=
  .content_block_start idx .text
    :: ((chunksFrom t.data).map fun chunk =>
          StreamEvent.content_block_delta idx (.text_delta chunk))
    ++ [.content_block_stop idx]

/-- Events for one tool_use block (cloudcode-client.js lines 266-295). -/
def toolBlockEvents (idx : Nat) (id nm : String) (input : Json) : List StreamEvent :=
  [.content_block_start idx (.tool_use id nm),
   .content_block_delta idx (.input_json_delta (jsonStringify input)),
   .content_block_stop idx]

def blockEvents (idx : Nat) : OutBlock → List StreamEvent
  | .text t => textBlockEvents idx t
  | .tool_use id nm input => toolBlockEvents idx id nm input

/-- The content loop with its `blockIndex` counter (lines 236-297). -/
def contentEvents (idx : Nat) : List OutBlock → List StreamEvent
  | [] => []
  | b :: rest => blockEvents idx b ++ contentEvents (idx + 1) rest

/-- The full synthesized event sequence of `sendMessageStream`
(cloudcode-client.js lines 214-311) for an already-computed response. -/
def streamEventsOf (r : AnthropicResponse) : List StreamEvent :=
  .message_start r.id r.model r.input_tokens
    :: contentEvents 0 r.content
    ++ [.message_delta r.stop_reason r.output_tokens, .message_stop]

@[simp] theorem chunksFrom_nil : chunksFrom [] = [] := by rw [chunksFrom.eq_def]

theorem chunksFrom_cons (c : Char) (rest : List Char) :
    chunksFrom (c :: rest)
      = String.mk ((c :: rest).take STREAMING_CHUNK_SIZE)
          :: chunksFrom ((c :: rest).drop STREAMING_CHUNK_SIZE) := by
  rw [chunksFrom.eq_def]

/-- A text of length `L` is cut into `⌈L / C⌉` chunks. -/
theorem chunksFrom_length : ∀ l : List Char,
    (chunksFrom l).length
      = (l.length + (STREAMING_CHUNK_SIZE - 1)) / STREAMING_CHUNK_SIZE
  | [] => by rw [chunksFrom_nil]; rfl
  | c :: rest => by
      rw [chunksFrom_cons]
      have IH := chunksFrom_length ((c :: rest).drop STREAMING_CHUNK_SIZE)
      simp only [List.length_cons, List.length_drop, STREAMING_CHUNK_SIZE] at IH ⊢
      rw [IH]
      omega
termination_by l => l.length
decreasing_by
  simp only [STREAMING_CHUNK_SIZE, List.length_drop, List.length_cons]
  omega

/-- The chunks concatenate back to the original character list. -/
theorem chunksFrom_flatten : ∀ l : List Char,
    ((chunksFrom l).map String.data).flatten = l
  | [] => by simp
  | c :: rest => by
      rw [chunksFrom_cons]
      have IH := chunksFrom_flatten ((c :: rest).drop STREAMING_CHUNK_SIZE)
      simp only [List.map_cons, List.flatten_cons, IH]
      exact List.take_append_drop _ _
termination_by l => l.length
decreasing_by
  simp only [STREAMING_CHUNK_SIZE, List.length_drop, List.length_cons]
  omega

theorem string_foldl_append (ss : List String) : ∀ a : String,
    ss.foldl (· ++ ·) a = String.mk (a.data ++ (ss.map String.data).flatten) := by
  induction ss with
  | nil =>
      intro a
      cases a
      simp
  | cons s ss ih =>
      intro a
      rw [List.foldl_cons, ih]
      simp [String.data_append]

theorem string_join_eq (ss : List String) :
    String.join ss = String.mk ((ss.map String.data).flatten) := by
  have : String.join ss = ss.foldl (· ++ ·) "" := rfl
  rw [this, string_foldl_append]
  rfl

/-- The text payload of a `content_block_delta` carrying a `text_delta`. -/
def deltaText? : StreamEvent → Option String
  | .content_block_delta _ (.text_delta t) => some t
  | _ => none

theorem filterMap_deltaText_map (idx : Nat) (ss : List String) :
    (ss.map fun chunk =>
        StreamEvent.content_block_delta idx (.text_delta chunk)).filterMap deltaText?
      = ss := by
  induction ss with
  | nil => rfl
  | cons s ss ih => simp [List.filterMap_cons, deltaText?, ih]

/-- C4: for a text block of length `L`, the synthesizer emits exactly
`⌈L / STREAMING_CHUNK_SIZE⌉` text-delta events, and the concatenation of
their payloads in emission order is the original text. -/
theorem c4_text_chunking (idx : Nat) (t : String) :
    ((blockEvents idx (.text t)).filterMap deltaText?).length
        = (t.length + (STREAMING_CHUNK_SIZE - 1)) / STREAMING_CHUNK_SIZE
    ∧ String.join ((blockEvents idx (.text t)).filterMap deltaText?) = t := by
  have hfm : (blockEvents idx (.text t)).filterMap deltaText? = chunksFrom t.data := by
    simp only [blockEvents, textBlockEvents, List.filterMap_cons, List.filterMap_append,
      deltaText?, filterMap_deltaText_map idx]
    simp [deltaText?]
  constructor
  · rw [hfm]
    exact chunksFrom_length t.data
  · rw [hfm, string_join_eq, chunksFrom_flatten]

/-! ## Stream well-formedness (C3) -/

def startIndex? : StreamEvent → Option Nat
  | .content_block_start i _ => some i
  | _ => none

def stopIndex? : StreamEvent → Option Nat
  | .content_block_stop i => some i
  | _ => none

def isMessageStart : StreamEvent → Bool
  | .message_start _ _ _ => true
  | _ => false

def isMessageStop : StreamEvent → Bool
  | .message_stop => true
  | _ => false

theorem deltas_filterMap_start (idx : Nat) (ss : List String) :
    (ss.map fun chunk =>
        StreamEvent.content_block_delta idx (.text_delta chunk)).filterMap startIndex?
      = [] := by
  induction ss with
  | nil => rfl
  | cons s ss ih => simp [List.filterMap_cons, startIndex?, ih]

theorem deltas_filterMap_stop (idx : Nat) (ss : List String) :
    (ss.map fun chunk =>
        StreamEvent.content_block_delta idx (.text_delta chunk)).filterMap stopIndex?
      = [] := by
  induction ss with
  | nil => rfl
  | cons s ss ih => simp [List.filterMap_cons, stopIndex?, ih]

theorem deltas_countP_start (idx : Nat) (ss : List String) :
    (ss.map fun chunk =>
        StreamEvent.content_block_delta idx (.text_delta chunk)).countP isMessageStart
      = 0 := by
  induction ss with
  | nil => rfl
  | cons s ss ih => simp [List.countP_cons, isMessageStart, ih]

theorem deltas_countP_stop (idx : Nat) (ss : List String) :
    (ss.map fun chunk =>
        StreamEvent.content_block_delta idx (.text_delta chunk)).countP isMessageStop
      = 0 := by
  induction ss with
  | nil => rfl
  | cons s ss ih => simp [List.countP_cons, isMessageStop, ih]

theorem blockEvents_filterMap_start (i : Nat) (b : OutBlock) :
    (blockEvents i b).filterMap startIndex? = [i] := by
  cases b with
  | text t =>
      simp [blockEvents, textBlockEvents, List.filterMap_cons, List.filterMap_append,
        startIndex?, deltas_filterMap_start]
  | tool_use id nm input =>
      simp [blockEvents, toolBlockEvents, List.filterMap_cons, startIndex?]

theorem blockEvents_filterMap_stop (i : Nat) (b : OutBlock) :
    (blockEvents i b).filterMap stopIndex? = [i] := by
  cases b with
  | text t =>
      simp [blockEvents, textBlockEvents, List.filterMap_cons, List.filterMap_append,
        stopIndex?, deltas_filterMap_stop]
  | tool_use id nm input =>
      simp [blockEvents, toolBlockEvents, List.filterMap_cons, stopIndex?]

theorem blockEvents_countP_start (i : Nat) (b : OutBlock) :
    (blockEvents i b).countP isMessageStart = 0 := by
  cases b with
  | text t =>
      simp [blockEvents, textBlockEvents, List.countP_cons, List.countP_append,
        isMessageStart, deltas_countP_start]
  | tool_use id nm input =>
      simp [blockEvents, toolBlockEvents, List.countP_cons, isMessageStart]

theorem blockEvents_countP_stop (i : Nat) (b : OutBlock) :
    (blockEvents i b).countP isMessageStop = 0 := by
  cases b with
  | text t =>
      simp [blockEvents, textBlockEvents, List.countP_cons, List.countP_append,
        isMessageStop, deltas_countP_stop]
  | tool_use id nm input =>
      simp [blockEvents, toolBlockEvents, List.countP_cons, isMessageStop]

theorem contentEvents_filterMap_start (bs : List OutBlock) : ∀ i : Nat,
    (contentEvents i bs).filterMap startIndex? = List.range' i bs.length := by
  induction bs with
  | nil => intro i; rfl
  | cons b rest ih =>
      intro i
      simp only [contentEvents, List.filterMap_append, blockEvents_filterMap_start,
        ih (i + 1), List.length_cons, List.range'_succ]
      rfl

theorem contentEvents_filterMap_stop (bs : List OutBlock) : ∀ i : Nat,
    (contentEvents i bs).filterMap stopIndex? = List.range' i bs.length := by
  induction bs with
  | nil => intro i; rfl
  | cons b rest ih =>
      intro i
      simp only [contentEvents, List.filterMap_append, blockEvents_filterMap_stop,
        ih (i + 1), List.length_cons, List.range'_succ]
      rfl

theorem contentEvents_countP_start (bs : List OutBlock) : ∀ i : Nat,
    (contentEvents i bs).countP isMessageStart = 0 := by
  induction bs with
  | nil => intro i; rfl
  | cons b rest ih =>
      intro i
      simp [contentEvents, List.countP_append, blockEvents_countP_start, ih (i + 1)]

theorem contentEvents_countP_stop (bs : List OutBlock) : ∀ i : Nat,
    (contentEvents i bs).countP isMessageStop = 0 := by
  induction bs with
  | nil => intro i; rfl
  | cons b rest ih =>
      intro i
      simp [contentEvents, List.countP_append, blockEvents_countP_stop, ih (i + 1)]

theorem blockEvents_start_pos (i : Nat) (b : OutBlock) (k j : Nat) (cb : StartBlock)
    (h : (blockEvents i b)[k]? = some (.content_block_start j cb)) : j = i ∧ k = 0 := by
  cases b with
  | text t =>
      match k with
      | 0 =>
          simp [blockEvents, textBlockEvents] at h
          exact ⟨h.1.symm, rfl⟩
      | k + 1 =>
          exfalso
          simp only [blockEvents, textBlockEvents, List.getElem?_cons_succ] at h
          obtain ⟨hlt, heq⟩ := List.getElem?_eq_some.mp h
          have hmem : StreamEvent.content_block_start j cb
              ∈ ((chunksFrom t.data).map fun chunk =>
                    StreamEvent.content_block_delta i (.text_delta chunk))
                 ++ [StreamEvent.content_block_stop i] := heq ▸ List.getElem_mem _
          simp [List.mem_append, List.mem_map] at hmem
  | tool_use id nm input =>
      match k with
      | 0 =>
          simp [blockEvents, toolBlockEvents] at h
          exact ⟨h.1.symm, rfl⟩
      | 1 => simp [blockEvents, toolBlockEvents] at h
      | 2 => simp [blockEvents, toolBlockEvents] at h
      | n + 3 => simp [blockEvents, toolBlockEvents] at h

theorem blockEvents_stop_pos (i : Nat) (b : OutBlock) :
    ∃ m, 0 < m ∧ (blockEvents i b)[m]? = some (.content_block_stop i) := by
  cases b with
  | text t =>
      refine ⟨(chunksFrom t.data).length + 1, by omega, ?_⟩
      simp only [blockEvents, textBlockEvents]
      have hlen : (chunksFrom t.data).length + 1
          = (StreamEvent.content_block_start i StartBlock.text ::
              ((chunksFrom t.data).map fun chunk =>
                StreamEvent.content_block_delta i (.text_delta chunk))).length := by
        simp
      rw [hlen, List.getElem?_concat_length]
  | tool_use id nm input =>
      exact ⟨2, by omega, by simp [blockEvents, toolBlockEvents]⟩

theorem contentEvents_start_stop : ∀ (bs : List OutBlock) (i k j : Nat) (cb : StartBlock),
    (contentEvents i bs)[k]? = some (.content_block_start j cb) →
    ∃ m, k < m ∧ (contentEvents i bs)[m]? = some (.content_block_stop j) := by
  intro bs
  induction bs with
  | nil => intro i k j cb h; simp [contentEvents] at h
  | cons b rest ih =>
      intro i k j cb h
      simp only [contentEvents] at h ⊢
      by_cases hk : k < (blockEvents i b).length
      · rw [List.getElem?_append_left hk] at h
        obtain ⟨hj, hk0⟩ := blockEvents_start_pos i b k j cb h
        subst hj hk0
        obtain ⟨m, hm0, hmk⟩ := blockEvents_stop_pos j b
        obtain ⟨hmlt, -⟩ := List.getElem?_eq_some.mp hmk
        exact ⟨m, hm0, by rw [List.getElem?_append_left hmlt]; exact hmk⟩
      · push_neg at hk
        rw [List.getElem?_append_right hk] at h
        obtain ⟨m, hlt, hm⟩ := ih (i + 1) (k - (blockEvents i b).length) j cb h
        refine ⟨(blockEvents i b).length + m, by omega, ?_⟩
        rw [List.getElem?_append_right (by omega)]
        simpa [Nat.add_sub_cancel_left] using hm

/-- C3: for any frontend response (text and tool_use blocks only), the
synthesized event sequence starts with exactly one `message_start` and
ends with exactly one `message_stop`; the indices of the
`content_block_start` events (and likewise the `content_block_stop`
events) are exactly `0, 1, 2, …` in order across text and tool_use
blocks; and every `content_block_start` is followed by a later
`content_block_stop` with the same index. -/
theorem c3_stream_wellformed (r : AnthropicResponse) :
    (streamEventsOf r).head? = some (.message_start r.id r.model r.input_tokens)
    ∧ (streamEventsOf r).getLast? = some .message_stop
    ∧ (streamEventsOf r).countP isMessageStart = 1
    ∧ (streamEventsOf r).countP isMessageStop = 1
    ∧ (streamEventsOf r).filterMap startIndex? = List.range r.content.length
    ∧ (streamEventsOf r).filterMap stopIndex? = List.range r.content.length
    ∧ ∀ (k j : Nat) (cb : StartBlock),
        (streamEventsOf r)[k]? = some (StreamEvent.content_block_start j cb) →
        ∃ m, k < m
          ∧ (streamEventsOf r)[m]? = some (StreamEvent.content_block_stop j) := by
  refine ⟨rfl, ?_, ?_, ?_, ?_, ?_, ?_⟩
  · have hsplit : streamEventsOf r
        = ((StreamEvent.message_start r.id r.model r.input_tokens
              :: contentEvents 0 r.content)
            ++ [StreamEvent.message_delta r.stop_reason r.output_tokens])
          ++ [StreamEvent.message_stop] := by
      simp [streamEventsOf]
    rw [hsplit, List.getLast?_concat]
  · simp [streamEventsOf, List.countP_append, List.countP_cons, isMessageStart,
      contentEvents_countP_start]
  · simp [streamEventsOf, List.countP_append, List.countP_cons, isMessageStop,
      contentEvents_countP_stop]
  · simp [streamEventsOf, List.filterMap_append, List.filterMap_cons, startIndex?,
      contentEvents_filterMap_start, List.range_eq_range']
  · simp [streamEventsOf, List.filterMap_append, List.filterMap_cons, stopIndex?,
      contentEvents_filterMap_stop, List.range_eq_range']
  · intro k j cb h
    match k with
    | 0 => simp [streamEventsOf] at h
    | k + 1 =>
        rw [show streamEventsOf r
            = StreamEvent.message_start r.id r.model r.input_tokens
              :: (contentEvents 0 r.content
                  ++ [StreamEvent.message_delta r.stop_reason r.output_tokens,
                      StreamEvent.message_stop]) from by simp [streamEventsOf],
          List.getElem?_cons_succ] at h
        by_cases hk : k < (contentEvents 0 r.content).length
        · rw [List.getElem?_append_left hk] at h
          obtain ⟨m, hkm, hm⟩ := contentEvents_start_stop r.content 0 k j cb h
          obtain ⟨hmlt, -⟩ := List.getElem?_eq_some.mp hm
          refine ⟨m + 1, by omega, ?_⟩
          rw [show streamEventsOf r
              = StreamEvent.message_start r.id r.model r.input_tokens
                :: (contentEvents 0 r.content
                    ++ [StreamEvent.message_delta r.stop_reason r.output_tokens,
                        StreamEvent.message_stop]) from by simp [streamEventsOf],
            List.getElem?_cons_succ, List.getElem?_append_left hmlt]
          exact hm
        · push_neg at hk
          exfalso
          rw [List.getElem?_append_right hk] at h
          obtain ⟨hb, heq⟩ := List.getElem?_eq_some.mp h
          have hmem : StreamEvent.content_block_start j cb
              ∈ [StreamEvent.message_delta r.stop_reason r.output_tokens,
                 StreamEvent.message_stop] := heq ▸ List.getElem_mem _
          simp at hmem

/-- A concrete response used to instantiate C3. -/
def c3ExampleResponse : AnthropicResponse :=
  { id := "msg_1", content := [.text "hello", .tool_use "t1" "get" (.obj [])],
    model := some "claude-sonnet-4-5", stop_reason := "tool_use",
    input_tokens := 3, output_tokens := 5 }

/-- Witness for C3: the first `content_block_start` of a concrete stream
sits at position 1 with index 0, and the theorem yields its matching
later `content_block_stop`. -/
theorem c3_stream_wellformed_witness :
    (streamEventsOf c3ExampleResponse)[1]? = some (.content_block_start 0 .text)
    ∧ ∃ m, 1 < m ∧ (streamEventsOf c3ExampleResponse)[m]?
        = some (.content_block_stop 0) :=
  have h1 : (streamEventsOf c3ExampleResponse)[1]?
      = some (.content_block_start 0 .text) := by
    simp [streamEventsOf, c3ExampleResponse, contentEvents, blockEvents, textBlockEvents]
  ⟨h1, (c3_stream_wellformed c3ExampleResponse).2.2.2.2.2.2 1 0 .text h1⟩

/-! ## Endpoint dispatcher and project resolver (cloudcode-client.js) -/

def ANTIGRAVITY_ENDPOINT_DAILY : String :=
  "https://daily-cloudcode-pa.sandbox.googleapis.com"

def ANTIGRAVITY_ENDPOINT_AUTOPUSH : String :=
  "https://autopush-cloudcode-pa.sandbox.googleapis.com"

def ANTIGRAVITY_ENDPOINT_PROD : String := "https://cloudcode-pa.googleapis.com"

/-- The fallback order daily → autopush → prod (constants.js lines 12-16). -/
def ANTIGRAVITY_ENDPOINT_FALLBACKS : List String :=
  [ANTIGRAVITY_ENDPOINT_DAILY, ANTIGRAVITY_ENDPOINT_AUTOPUSH, ANTIGRAVITY_ENDPOINT_PROD]

/-- `DEFAULT_PROJECT_ID` (constants.js line 71). -/
def DEFAULT_PROJECT_ID : String := "rising-fact-p41fc"

/-- Result of a `fetch` to `v1internal:loadCodeAssist`: an HTTP reply
with its `ok` flag and the parsed `cloudaicompanionProject` field
(`Json.null` when absent), or a transport error (the `catch` path). -/
inductive LoadResult where
  | http (ok : Bool) (cloudaicompanionProject : Json)
  | netError

/-- Result of a `fetch` to `v1internal:generateContent`: an HTTP status
with the parsed response body and the error text, or a transport error. -/
inductive GenResult where
  | http (status : Nat) (body : GoogleResponse) (errorText : String)
  | netError (msg : String)

/-- The environment of one dispatch: the token the credential
collaborator returns after `n` refreshes, the responses of the two
backend verbs per endpoint and per-endpoint call index, and the id
supply consumed by the response converter. -/
structure World where
  tokens : Nat → String
  load : String → Nat → LoadResult
  gen : String → Nat → GenResult
  ids : IdSupply

/-- One `generateContent` call as recorded in the trace: the endpoint,
the bearer token sent, and the payload's `project` field at that call. -/
structure GenCall where
  endpoint : String
  token : String
  project : Json

/-- The state threaded through a dispatch: the process-wide project
cache (`cachedProject` in cloudcode-client.js line 27), the number of
credential refreshes performed so far, how many calls were made per
endpoint and verb, and the trace of `generateContent` calls. -/
structure ClientState where
  cachedProject : Option Json
  refreshCount : Nat
  loadCount : String → Nat
  genCount : String → Nat
  trace : List GenCall

/-- The endpoint loop of `getProject` (cloudcode-client.js lines 40-82):
a bare non-empty string project is cached and returned; otherwise a
truthy `cloudaicompanionProject?.id` is cached and returned; any
failure or unusable reply advances to the next endpoint. -/
def getProjectGo (w : World) (st : ClientState) : List String → Json × ClientState
  | [] =>
      (Json.str DEFAULT_PROJECT_ID,
       { st with cachedProject := some (Json.str DEFAULT_PROJECT_ID) })
  | e :: rest =>
      let n := st.loadCount e
      let st' := { st with
        loadCount := fun x => if x == e then n + 1 else st.loadCount x }
      match w.load e n with
      | .http ok proj =>
          if ok then
            if (match proj with | .str s => s != "" | _ => false) then
              (proj, { st' with cachedProject := some proj })
            else if (proj.getField "id").truthy then
              (proj.getField "id",
               { st' with cachedProject := some (proj.getField "id") })
            else getProjectGo w st' rest
          else getProjectGo w st' rest
      | .netError => getProjectGo w st' rest

/-- `getProject` (cloudcode-client.js lines 32-88): the cached value if
set, otherwise discovery over the fallback endpoints with the static
default as last resort.  Total: every path returns a project. -/
def getProject (w : World) (st : ClientState) : Json × ClientState :=
  match st.cachedProject with
  | some p => (p, st)
  | none => getProjectGo w st ANTIGRAVITY_ENDPOINT_FALLBACKS

/-- `clearProjectCache` (cloudcode-client.js lines 93-95). -/
def clearProjectCache (st : ClientState) : ClientState :=
  { st with cachedProject := none }

/-- `refreshAndGetProject` (cloudcode-client.js lines 100-106):
`await refreshToken(); token = await getToken(); clearProjectCache();
project = await getProject(token)`. -/
def refreshAndGetProject (w : World) (st : ClientState) :
    String × Json × ClientState :=
  let st1 := { st with refreshCount := st.refreshCount + 1 }
  let token := w.tokens st1.refreshCount
  let (project, st2) := getProject w (clearProjectCache st1)
  (token, project, st2)

/-- Classified dispatch failures (cloudcode-client.js lines 184, 190,
202, 206). -/
inductive DispatchError where
  | rateLimited (errorText : String)
  | apiError (status : Nat) (errorText : String)
  | network (msg : String)
  | allFailed

/-- The endpoint loop of `sendMessage` (cloudcode-client.js lines
154-204).  `response.ok` is status 200-299; a 401 refreshes the
credential, re-resolves the project, updates `payload.project` and
`continue`s — which advances the `for … of` loop to the *next*
endpoint; 429 and other ≥400 statuses record `lastError` and advance;
a non-ok status below 400 falls through to `response.json()`, which
throws ("Body is unusable") because `response.text()` already consumed
the body, so the `catch` records the error and advances. -/
def sendMessageGo (w : World) (req : AnthropicRequest) :
    List String → String → Json → Option DispatchError → ClientState →
    Except DispatchError AnthropicResponse × ClientState
  | [], _, _, lastError, st => (.error (lastError.getD .allFailed), st)
  | e :: rest, token, project, lastError, st =>
      let n := st.genCount e
      let st' := { st with
        genCount := fun x => if x == e then n + 1 else st.genCount x,
        trace := st.trace ++ [⟨e, token, project⟩] }
      match w.gen e n with
      | .http status body errorText =>
          if 200 ≤ status ∧ status ≤ 299 then
            (.ok (convertGoogleToAnthropic w.ids body req.model), st')
          else if status == 401 then
            let (token', project', st'') := refreshAndGetProject w st'
            sendMessageGo w req rest token' project' lastError st''
          else if status == 429 then
            sendMessageGo w req rest token project
              (some (.rateLimited errorText)) st'
          else if 400 ≤ status then
            sendMessageGo w req rest token project
              (some (.apiError status errorText)) st'
          else
            sendMessageGo w req rest token project
              (some (.network "Body is unusable")) st'
      | .netError msg =>
          sendMessageGo w req rest token project (some (.network msg)) st'

/-- `sendMessage` (cloudcode-client.js lines 137-207): get the token and
project, build the payload, and walk the fallback endpoints.  The
modelled `getProject` is total, so the `catch` of lines 143-146 is
unreachable here. -/
def sendMessage (w : World) (req : AnthropicRequest) (st : ClientState) :
    Except DispatchError AnthropicResponse × ClientState :=
  let token := w.tokens st.refreshCount
  let (project, st1) := getProject w st
  sendMessageGo w req ANTIGRAVITY_ENDPOINT_FALLBACKS token project none st1

/-- A fresh state with a possibly pre-populated project cache. -/
def initState (cached : Option Json) : ClientState :=
  { cachedProject := cached, refreshCount := 0,
    loadCount := fun _ => 0, genCount := fun _ => 0, trace := [] }

/-! ## Project resolver (C9) -/

/-- A discovery reply from which `getProject` can extract no project:
a failed request, or a body whose `cloudaicompanionProject` is neither a
non-empty string nor an object with a truthy `id`. -/
def yieldsNoProject : LoadResult → Bool
  | .netError => true
  | .http ok proj =>
      !ok || (!(match proj with | .str s => s != "" | _ => false)
              && !(proj.getField "id").truthy)

theorem getProjectGo_all_fail (w : World) (eps : List String) :
    ∀ st : ClientState, (∀ e n, yieldsNoProject (w.load e n) = true) →
      (getProjectGo w st eps).1 = Json.str DEFAULT_PROJECT_ID
      ∧ (getProjectGo w st eps).2.cachedProject = some (Json.str DEFAULT_PROJECT_ID) := by
  induction eps with
  | nil => intro st h; exact ⟨rfl, rfl⟩
  | cons e rest ih =>
      intro st h
      have he := h e (st.loadCount e)
      simp only [getProjectGo]
      cases hl : w.load e (st.loadCount e) with
      | netError => exact ih _ h
      | http ok proj =>
          rw [hl] at he
          simp only [yieldsNoProject, Bool.or_eq_true, Bool.and_eq_true,
            Bool.not_eq_true'] at he
          rcases he with he | ⟨hs, hid⟩
          · simp only [he, if_false]
            exact ih _ h
          · cases ok with
            | false => simp only [if_false]; exact ih _ h
            | true =>
                simp only [if_true, hs, hid, if_false]
                exact ih _ h

/-- C9: when no backend host yields a usable project, the resolver
returns the static default id and caches it; once any value is cached,
`getProject` returns it with the state untouched (no network call); and
`clearProjectCache` empties the cache unconditionally. -/
theorem c9_project_resolver (w : World) (st : ClientState) (p : Json) :
    (st.cachedProject = none →
      (∀ e n, yieldsNoProject (w.load e n) = true) →
      ((getProject w st).1 = Json.str DEFAULT_PROJECT_ID
        ∧ (getProject w st).2.cachedProject = some (Json.str DEFAULT_PROJECT_ID)))
    ∧ (st.cachedProject = some p → getProject w st = (p, st))
    ∧ (clearProjectCache st).cachedProject = none := by
  refine ⟨?_, ?_, rfl⟩
  · intro hnone hfail
    rw [show getProject w st = getProjectGo w st ANTIGRAVITY_ENDPOINT_FALLBACKS from by
      simp [getProject, hnone]]
    exact getProjectGo_all_fail w _ st hfail
  · intro hsome
    simp [getProject, hsome]

/-- Witness for C9: a world whose every discovery call fails at the
transport level, starting from an empty cache. -/
theorem c9_project_resolver_witness :
    ((initState none).cachedProject = none
      ∧ ∀ e n, yieldsNoProject ((World.load
          ⟨fun n => "tok" ++ toString n, fun _ _ => .netError,
           fun _ _ => .netError "down", ⟨"msg", fun _ => "t"⟩⟩) e n) = true)
    ∧ ((getProject
          ⟨fun n => "tok" ++ toString n, fun _ _ => .netError,
           fun _ _ => .netError "down", ⟨"msg", fun _ => "t"⟩⟩
          (initState none)).1 = Json.str DEFAULT_PROJECT_ID
        ∧ (getProject
          ⟨fun n => "tok" ++ toString n, fun _ _ => .netError,
           fun _ _ => .netError "down", ⟨"msg", fun _ => "t"⟩⟩
          (initState none)).2.cachedProject = some (Json.str DEFAULT_PROJECT_ID)) :=
  ⟨⟨rfl, fun _ _ => rfl⟩,
   (c9_project_resolver
      ⟨fun n => "tok" ++ toString n, fun _ _ => .netError,
       fun _ _ => .netError "down", ⟨"msg", fun _ => "t"⟩⟩
      (initState none) Json.null).1 rfl (fun _ _ => rfl)⟩

/-! ## Endpoint dispatcher (C6, C1) -/

theorem endpoint_ne_21 :
    (ANTIGRAVITY_ENDPOINT_AUTOPUSH == ANTIGRAVITY_ENDPOINT_DAILY) = false := by decide

theorem endpoint_ne_eq_21 : ANTIGRAVITY_ENDPOINT_AUTOPUSH ≠ ANTIGRAVITY_ENDPOINT_DAILY := by
  decide

theorem endpoint_ne_eq_31 : ANTIGRAVITY_ENDPOINT_PROD ≠ ANTIGRAVITY_ENDPOINT_DAILY := by
  decide

theorem endpoint_ne_eq_32 : ANTIGRAVITY_ENDPOINT_PROD ≠ ANTIGRAVITY_ENDPOINT_AUTOPUSH := by
  decide

theorem endpoint_ne_31 :
    (ANTIGRAVITY_ENDPOINT_PROD == ANTIGRAVITY_ENDPOINT_DAILY) = false := by decide

theorem endpoint_ne_32 :
    (ANTIGRAVITY_ENDPOINT_PROD == ANTIGRAVITY_ENDPOINT_AUTOPUSH) = false := by decide

/-- C6: with the project already cached, two 429 replies on the first
two hosts and a success on the third, the dispatcher returns the third
host's converted result and never refreshes the credential. -/
theorem c6_rate_limit_advances (w : World) (req : AnthropicRequest) (pj : Json)
    (b1 b2 : GoogleResponse) (t1 t2 : String) (r3 : GoogleResponse) (e3 : String)
    (h1 : w.gen ANTIGRAVITY_ENDPOINT_DAILY 0 = .http 429 b1 t1)
    (h2 : w.gen ANTIGRAVITY_ENDPOINT_AUTOPUSH 0 = .http 429 b2 t2)
    (h3 : w.gen ANTIGRAVITY_ENDPOINT_PROD 0 = .http 200 r3 e3) :
    (sendMessage w req (initState (some pj))).1
      = .ok (convertGoogleToAnthropic w.ids r3 req.model)
    ∧ (sendMessage w req (initState (some pj))).2.refreshCount = 0 := by
  constructor <;>
    simp [sendMessage, sendMessageGo, getProject, initState,
      ANTIGRAVITY_ENDPOINT_FALLBACKS, h1, h2, h3,
      endpoint_ne_21, endpoint_ne_31, endpoint_ne_32]

/-- A minimal frontend request for concrete dispatches. -/
def exampleRequest : AnthropicRequest :=
  { model := some "claude-sonnet-4-5", messages := [], system := none,
    max_tokens := none, temperature := none, top_p := none, top_k := none,
    stop_sequences := none, tools := none }

def emptyGoogleResponse : GoogleResponse := ⟨[], none⟩

def okGoogleResponse : GoogleResponse :=
  ⟨[⟨some [.text "done" false], some "STOP"⟩], none⟩

/-- Three hosts: the first two rate-limit, production succeeds. -/
def c6World : World :=
  { tokens := fun n => "tok" ++ toString n,
    load := fun _ _ => .netError,
    gen := fun e _ =>
      if e == ANTIGRAVITY_ENDPOINT_PROD then .http 200 okGoogleResponse ""
      else .http 429 emptyGoogleResponse "quota",
    ids := ⟨"msg_0", fun _ => "toolu_0"⟩ }

/-- Witness for C6: the concrete two-429s-then-success dispatch. -/
theorem c6_rate_limit_advances_witness :
    c6World.gen ANTIGRAVITY_ENDPOINT_DAILY 0 = .http 429 emptyGoogleResponse "quota"
    ∧ c6World.gen ANTIGRAVITY_ENDPOINT_AUTOPUSH 0 = .http 429 emptyGoogleResponse "quota"
    ∧ c6World.gen ANTIGRAVITY_ENDPOINT_PROD 0 = .http 200 okGoogleResponse ""
    ∧ (sendMessage c6World exampleRequest (initState (some (Json.str "p0")))).1
        = .ok (convertGoogleToAnthropic c6World.ids okGoogleResponse exampleRequest.model)
    ∧ (sendMessage c6World exampleRequest (initState (some (Json.str "p0")))).2.refreshCount
        = 0 :=
  have g1 : c6World.gen ANTIGRAVITY_ENDPOINT_DAILY 0
      = .http 429 emptyGoogleResponse "quota" := rfl
  have g2 : c6World.gen ANTIGRAVITY_ENDPOINT_AUTOPUSH 0
      = .http 429 emptyGoogleResponse "quota" := rfl
  have g3 : c6World.gen ANTIGRAVITY_ENDPOINT_PROD 0
      = .http 200 okGoogleResponse "" := rfl
  have hc := c6_rate_limit_advances c6World exampleRequest (Json.str "p0")
    emptyGoogleResponse emptyGoogleResponse "quota" "quota" okGoogleResponse "" g1 g2 g3
  ⟨g1, g2, g3, hc.1, hc.2⟩

/-- First host: 401 once, then would succeed; other hosts rate-limit;
discovery never yields a project. -/
def c1World : World :=
  { tokens := fun n => "tok" ++ toString n,
    load := fun _ _ => .netError,
    gen := fun e n =>
      if e == ANTIGRAVITY_ENDPOINT_DAILY then
        (if n == 0 then .http 401 emptyGoogleResponse "auth"
         else .http 200 okGoogleResponse "")
      else .http 429 emptyGoogleResponse "quota",
    ids := ⟨"msg_0", fun _ => "toolu_0"⟩ }

/-- C1, counterexample: the claim's same-host retry does not happen.  In
this world the first host answers 401 and *would* answer 200 to a second
call (third conjunct), yet the dispatcher's three `generateContent`
calls go to the three distinct hosts in fallback order — after the 401
it advances to the next host — and the dispatch ends rate-limited
instead of succeeding on the claimed same-host retry. -/
theorem c1_counterexample :
    (sendMessage c1World exampleRequest (initState (some (Json.str "p0")))).1
      = .error (.rateLimited "quota")
    ∧ (sendMessage c1World exampleRequest
        (initState (some (Json.str "p0")))).2.trace.map GenCall.endpoint
      = [ANTIGRAVITY_ENDPOINT_DAILY, ANTIGRAVITY_ENDPOINT_AUTOPUSH,
         ANTIGRAVITY_ENDPOINT_PROD]
    ∧ c1World.gen ANTIGRAVITY_ENDPOINT_DAILY 1 = .http 200 okGoogleResponse "" :=
  ⟨rfl, rfl, rfl⟩

/-- C1 (amended): on a 401 the dispatcher invalidates the cached
project, force-refreshes the credential, re-resolves the project,
updates the payload's project field — and then advances to the *next*
host (the `continue` moves the `for … of` loop forward; the same host is
not retried).  In the scenario of a 401 on the first host followed by a
success on the second host, exactly one refresh occurs and the second
call carries the refreshed token and the re-resolved project in the
payload. -/
theorem c1_refresh_advances_next_host (w : World) (req : AnthropicRequest) (pj : Json)
    (b1 : GoogleResponse) (t1 q : String) (r2 : GoogleResponse) (e2 : String)
    (hq : q ≠ "")
    (h1 : w.gen ANTIGRAVITY_ENDPOINT_DAILY 0 = .http 401 b1 t1)
    (hload : w.load ANTIGRAVITY_ENDPOINT_DAILY 0 = .http true (.str q))
    (h2 : w.gen ANTIGRAVITY_ENDPOINT_AUTOPUSH 0 = .http 200 r2 e2) :
    (sendMessage w req (initState (some pj))).1
      = .ok (convertGoogleToAnthropic w.ids r2 req.model)
    ∧ (sendMessage w req (initState (some pj))).2.refreshCount = 1
    ∧ (sendMessage w req (initState (some pj))).2.trace
      = [⟨ANTIGRAVITY_ENDPOINT_DAILY, w.tokens 0, pj⟩,
         ⟨ANTIGRAVITY_ENDPOINT_AUTOPUSH, w.tokens 1, Json.str q⟩] := by
  have hq' : (q != "") = true := by simpa using hq
  refine ⟨?_, ?_, ?_⟩ <;>
    simp [sendMessage, sendMessageGo, getProject, getProjectGo, initState,
      refreshAndGetProject, clearProjectCache, ANTIGRAVITY_ENDPOINT_FALLBACKS,
      h1, h2, hload, hq', endpoint_ne_21, endpoint_ne_31, endpoint_ne_32,
      endpoint_ne_eq_21, endpoint_ne_eq_31, endpoint_ne_eq_32]

/-- First host answers 401; its discovery call yields a fresh project;
the second host succeeds. -/
def c1RetryWorld : World :=
  { tokens := fun n => "tok" ++ toString n,
    load := fun e _ =>
      if e == ANTIGRAVITY_ENDPOINT_DAILY then .http true (.str "proj-q")
      else .netError,
    gen := fun e _ =>
      if e == ANTIGRAVITY_ENDPOINT_DAILY then .http 401 emptyGoogleResponse "auth"
      else if e == ANTIGRAVITY_ENDPOINT_AUTOPUSH then .http 200 okGoogleResponse ""
      else .http 429 emptyGoogleResponse "quota",
    ids := ⟨"msg_0", fun _ => "toolu_0"⟩ }

/-- Witness for C1 (amended): the concrete 401-then-success dispatch,
with one refresh and the refreshed project in the second call's payload. -/
theorem c1_refresh_advances_next_host_witness :
    ("proj-q" : String) ≠ ""
    ∧ c1RetryWorld.gen ANTIGRAVITY_ENDPOINT_DAILY 0
        = .http 401 emptyGoogleResponse "auth"
    ∧ c1RetryWorld.load ANTIGRAVITY_ENDPOINT_DAILY 0 = .http true (.str "proj-q")
    ∧ c1RetryWorld.gen ANTIGRAVITY_ENDPOINT_AUTOPUSH 0
        = .http 200 okGoogleResponse ""
    ∧ (sendMessage c1RetryWorld exampleRequest (initState (some (Json.str "p0")))).1
        = .ok (convertGoogleToAnthropic c1RetryWorld.ids okGoogleResponse
            exampleRequest.model)
    ∧ (sendMessage c1RetryWorld exampleRequest
        (initState (some (Json.str "p0")))).2.refreshCount = 1
    ∧ (sendMessage c1RetryWorld exampleRequest
        (initState (some (Json.str "p0")))).2.trace
      = [⟨ANTIGRAVITY_ENDPOINT_DAILY, c1RetryWorld.tokens 0, Json.str "p0"⟩,
         ⟨ANTIGRAVITY_ENDPOINT_AUTOPUSH, c1RetryWorld.tokens 1, Json.str "proj-q"⟩] :=
  have hq : ("proj-q" : String) ≠ "" := by decide
  have h1 : c1RetryWorld.gen ANTIGRAVITY_ENDPOINT_DAILY 0
      = .http 401 emptyGoogleResponse "auth" := rfl
  have hload : c1RetryWorld.load ANTIGRAVITY_ENDPOINT_DAILY 0
      = .http true (.str "proj-q") := rfl
  have h2 : c1RetryWorld.gen ANTIGRAVITY_ENDPOINT_AUTOPUSH 0
      = .http 200 okGoogleResponse "" := rfl
  have hc := c1_refresh_advances_next_host c1RetryWorld exampleRequest
    (Json.str "p0") emptyGoogleResponse "auth" "proj-q" okGoogleResponse ""
    hq h1 hload h2
  ⟨hq, h1, hload, h2, hc.1, hc.2.1, hc.2.2⟩
